import Mathlib

/-!
Shallow embedding of the curve-animation engine of the BezierCurves
repository (script.js and its variants).

Modelling conventions: timestamps and durations are rationals, geometric
quantities (control-point coordinates, speeds) are reals — the source
computes with IEEE doubles and the real/rational idealisation is used
throughout.  Math.random() is modelled as an oracle that supplies, per
control-point index, the pair of values drawn when that point is
retargeted.  Canvas calls are modelled as emitted drawing commands; the
canvas dimensions are parameters.
-/

namespace Bezier

/-- One step of the binomial cache IIFE loop: from the stored half of
Pascal row i-1 compute the stored half of row i.  The boolean tracks
the `even` flag of the loop; when it is true the new row gains one more
entry, whose value is twice the last stored entry of the previous row
(the midpoint doubling). -/
def pascalRow (cache : List Nat) (evenFlag : Bool) : List Nat :=
  1 :: (List.range (cache.length + (if evenFlag then 1 else 0) - 1)).map (fun jm =>
    if jm + 1 ≠ cache.length then cache.getD jm 0 + cache.getD (jm + 1) 0
    else 2 * cache.getD jm 0)

/-- The binomial cache constructed by the IIFE at the bottom of the
script: iterate `pascalRow` for i = 1..n, where the `even` flag at
iteration i is `i % 2 == 0` (it starts true for i = 0 and is toggled at
the head of each iteration). -/
def buildBinomial : Nat → List Nat
  | 0 => [1]
  | i + 1 => pascalRow (buildBinomial i) ((i + 1) % 2 == 0)

/-- The binomial lookup `getNChooseX`: 0 outside [0, n], otherwise index
the cached half row directly or through the symmetry `C(n,x) = C(n,n-x)`.
The parameter is an integer so that the `x < 0` guard is meaningful. -/
def getNChooseX (n : Nat) (binomial : List Nat) (x : Int) : Nat :=
  if x < 0 ∨ x > (n : Int) then 0
  else if 2 * x ≤ (n : Int) then binomial.getD x.toNat 0
  else binomial.getD (n - x.toNat) 0

/-- Concrete evaluation of the cache at the degrees used by the
variants: only the first half of the Pascal row is stored. -/
theorem buildBinomial_concrete :
    buildBinomial 4 = [1, 4, 6] ∧ buildBinomial 5 = [1, 5, 10] ∧
    buildBinomial 12 = [1, 12, 66, 220, 495, 792, 924] ∧
    getNChooseX 12 (buildBinomial 12) 7 = 792 := by decide

/-- Reading a mapped range with a default inside the range yields the
function value. -/
theorem getD_map_range (g : Nat → Nat) (L j : Nat) (hj : j < L) :
    ((List.range L).map g).getD j 0 = g j := by
  rw [List.getD_eq_getElem?_getD, List.getElem?_eq_getElem (by simpa using hj)]
  simp

/-- Pascal step from an even row 2m to the odd row 2m+1: both stored
halves have length m+1 and no midpoint doubling occurs. -/
theorem pascalRow_odd (m : Nat) :
    pascalRow ((List.range (m + 1)).map (Nat.choose (2 * m))) false
      = (List.range (m + 1)).map (Nat.choose (2 * m + 1)) := by
  apply List.ext_getElem
  · simp [pascalRow]
  · intro k h1 h2
    match k with
    | 0 => simp [pascalRow]
    | k + 1 =>
      have hk : k < m := by
        simpa [pascalRow] using h1
      have hlen : ((List.range (m + 1)).map (Nat.choose (2 * m))).length = m + 1 := by simp
      simp only [pascalRow, List.getElem_cons_succ, List.getElem_map, List.getElem_range, hlen]
      rw [if_pos (by omega)]
      rw [getD_map_range _ _ _ (by omega), getD_map_range _ _ _ (by omega)]
      exact (Nat.choose_succ_succ (2 * m) k).symm

/-- Pascal step from an odd row 2m+1 to the even row 2m+2: the stored
half grows by one entry and the new midpoint is doubled. -/
theorem pascalRow_even (m : Nat) :
    pascalRow ((List.range (m + 1)).map (Nat.choose (2 * m + 1))) true
      = (List.range (m + 2)).map (Nat.choose (2 * m + 2)) := by
  apply List.ext_getElem
  · simp [pascalRow]
  · intro k h1 h2
    match k with
    | 0 => simp [pascalRow]
    | k + 1 =>
      have hk : k < m + 1 := by
        simpa [pascalRow] using h1
      have hlen : ((List.range (m + 1)).map (Nat.choose (2 * m + 1))).length = m + 1 := by simp
      simp only [pascalRow, List.getElem_cons_succ, List.getElem_map, List.getElem_range, hlen]
      by_cases hmid : k + 1 = m + 1
      · -- the doubled midpoint: C(2m+2, m+1) = 2 * C(2m+1, m)
        rw [if_neg (show ¬(k + 1 ≠ m + 1) by omega)]
        have hkm : k = m := by omega
        subst hkm
        rw [getD_map_range _ _ _ (by omega)]
        have hsymm : Nat.choose (2 * k + 1) (k + 1) = Nat.choose (2 * k + 1) k := by
          have h := Nat.choose_symm (n := 2 * k + 1) (k := k + 1) (by omega)
          simpa [show 2 * k + 1 - (k + 1) = k by omega] using h.symm
        rw [Nat.choose_succ_succ, hsymm]
        omega
      · rw [if_pos (by omega)]
        rw [getD_map_range _ _ _ (by omega), getD_map_range _ _ _ (by omega)]
        exact (Nat.choose_succ_succ (2 * m + 1) k).symm

/-- The constructed cache is exactly the first half of Pascal row n:
entry j is `C(n, j)` for j = 0..⌊n/2⌋. -/
theorem buildBinomial_eq (n : Nat) :
    buildBinomial n = (List.range (n / 2 + 1)).map (Nat.choose n) := by
  induction n with
  | zero => decide
  | succ i ih =>
    rw [buildBinomial, ih]
    obtain ⟨m, hm⟩ | ⟨m, hm⟩ : (∃ m, i = 2 * m) ∨ (∃ m, i = 2 * m + 1) := by
      rcases Nat.even_or_odd i with h | h
      · exact Or.inl ⟨i / 2, by
          have h2 := Nat.even_iff.mp h
          omega⟩
      · exact Or.inr ⟨i / 2, by
          have := Nat.odd_iff.mp h
          omega⟩
    · subst hm
      rw [show 2 * m / 2 + 1 = m + 1 by omega,
        show (2 * m + 1) / 2 + 1 = m + 1 by omega,
        show ((2 * m + 1) % 2 == 0) = false by
          have h2 : (2 * m + 1) % 2 = 1 := by omega
          simp [h2]]
      exact pascalRow_odd m
    · subst hm
      rw [show (2 * m + 1) / 2 + 1 = m + 1 by omega,
        show (2 * m + 1 + 1) / 2 + 1 = m + 2 by omega,
        show ((2 * m + 1 + 1) % 2 == 0) = true by
          have h2 : (2 * m + 1 + 1) % 2 = 0 := by omega
          simp [h2]]
      exact pascalRow_even m

theorem buildBinomial_length (n : Nat) : (buildBinomial n).length = n / 2 + 1 := by
  rw [buildBinomial_eq]; simp

theorem buildBinomial_getD (n j : Nat) (hj : j ≤ n / 2) :
    (buildBinomial n).getD j 0 = Nat.choose n j := by
  rw [buildBinomial_eq]; exact getD_map_range _ _ _ (by omega)

/-- The lookup recovers the full binomial coefficient from the stored
half row. -/
theorem getNChooseX_eq_choose (n k : Nat) (hk : k ≤ n) :
    getNChooseX n (buildBinomial n) (k : Int) = Nat.choose n k := by
  unfold getNChooseX
  rw [if_neg (by omega)]
  by_cases h2 : 2 * (k : Int) ≤ (n : Int)
  · rw [if_pos h2]
    simp only [Int.toNat_natCast]
    exact buildBinomial_getD n k (by omega)
  · rw [if_neg h2]
    simp only [Int.toNat_natCast]
    rw [buildBinomial_getD n (n - k) (by omega)]
    exact Nat.choose_symm hk

theorem getNChooseX_out_of_range (n : Nat) (binomial : List Nat) (x : Int)
    (h : x < 0 ∨ x > (n : Int)) : getNChooseX n binomial x = 0 := by
  unfold getNChooseX
  rw [if_pos h]

/-- C1, counterexample.  At the repository's degree n = 12 the stored
cache has length 7, not n + 1 = 13, and the stored entries are not
symmetric under k ↦ n - k (index 11 is out of the stored range, so its
defaulted read is 0 while entry 1 is 12). -/
theorem c1_counterexample :
    (buildBinomial 12).length ≠ 12 + 1 ∧
    (buildBinomial 12).getD 1 0 = 12 ∧ (buildBinomial 12).getD (12 - 1) 0 = 0 := by
  decide

/-- C1 (amended): for every degree n ≥ 1 the cache construction stores
the first half of Pascal row n — an array of length ⌊n/2⌋+1 whose entry
j is C(n,j), built by the Pascal recurrence with midpoint doubling — and
the full symmetric row is recovered through the lookup: getNChooseX is
symmetric under k ↦ n-k on [0,n] and returns 1 at 0 and at n. -/
theorem c1_binomial_table (n : Nat) (hn : 1 ≤ n) :
    (buildBinomial n).length = n / 2 + 1 ∧
    (∀ j, j ≤ n / 2 → (buildBinomial n).getD j 0 = Nat.choose n j) ∧
    (∀ k, k ≤ n →
      getNChooseX n (buildBinomial n) (k : Int)
        = getNChooseX n (buildBinomial n) ((n - k : Nat) : Int)) ∧
    getNChooseX n (buildBinomial n) 0 = 1 ∧
    getNChooseX n (buildBinomial n) (n : Int) = 1 := by
  refine ⟨buildBinomial_length n, fun j hj => buildBinomial_getD n j hj, ?_, ?_, ?_⟩
  · intro k hk
    rw [getNChooseX_eq_choose n k hk, getNChooseX_eq_choose n (n - k) (by omega),
      Nat.choose_symm hk]
  · have h := getNChooseX_eq_choose n 0 (by omega)
    simpa using h
  · have h := getNChooseX_eq_choose n n le_rfl
    simpa using h

theorem c1_binomial_table_witness :
    (buildBinomial 12).length = 7 ∧
    (buildBinomial 12).getD 3 0 = Nat.choose 12 3 ∧
    getNChooseX 12 (buildBinomial 12) 4 = getNChooseX 12 (buildBinomial 12) 8 ∧
    getNChooseX 12 (buildBinomial 12) 0 = 1 ∧
    getNChooseX 12 (buildBinomial 12) 12 = 1 := by
  obtain ⟨h1, h2, h3, h4, h5⟩ := c1_binomial_table 12 (by norm_num)
  exact ⟨h1, h2 3 (by norm_num), by simpa using h3 4 (by norm_num), h4, h5⟩

/-- C9: the binomial lookup is total — it returns 0 for any integer
outside [0, n], and on [0, n] it returns C(n, x), reading only indices
that lie inside the stored half table (index x when 2x ≤ n, index n - x
otherwise). -/
theorem c9_lookup (n : Nat) (x : Int) :
    ((x < 0 ∨ x > (n : Int)) → getNChooseX n (buildBinomial n) x = 0) ∧
    (0 ≤ x → x ≤ (n : Int) →
      getNChooseX n (buildBinomial n) x = Nat.choose n x.toNat ∧
      (2 * x ≤ (n : Int) → x.toNat < (buildBinomial n).length) ∧
      (¬2 * x ≤ (n : Int) → n - x.toNat < (buildBinomial n).length)) := by
  constructor
  · exact getNChooseX_out_of_range n (buildBinomial n) x
  · intro h0 hn
    obtain ⟨k, rfl⟩ : ∃ k : Nat, x = (k : Int) := ⟨x.toNat, (Int.toNat_of_nonneg h0).symm⟩
    have hk : k ≤ n := by omega
    refine ⟨?_, ?_, ?_⟩
    · simpa using getNChooseX_eq_choose n k hk
    · intro h2
      rw [buildBinomial_length]
      simp only [Int.toNat_natCast]
      omega
    · intro h2
      rw [buildBinomial_length]
      simp only [Int.toNat_natCast]
      omega

theorem c9_lookup_witness :
    getNChooseX 12 (buildBinomial 12) (-3) = 0 ∧
    getNChooseX 12 (buildBinomial 12) 9 = Nat.choose 12 9 := by
  exact ⟨(c9_lookup 12 (-3)).1 (by decide), ((c9_lookup 12 9).2 (by decide) (by decide)).1⟩

/-- Reading a mapped range with a default, for an arbitrary element
type. -/
theorem getD_map_range' {α : Type} [Inhabited α] (g : Nat → α) (L j : Nat) (hj : j < L) :
    ((List.range L).map g).getD j default = g j := by
  rw [List.getD_eq_getElem?_getD, List.getElem?_eq_getElem (by simpa using hj)]
  simp

/-- A frozen position-only point (class Point). -/
@[ext]
structure Pt where
  x : ℝ
  y : ℝ

instance : Inhabited Pt := ⟨⟨0, 0⟩⟩

/-- An animated control point (class AnimatedPoint): position, target
and step direction. -/
@[ext]
structure APoint where
  x : ℝ
  y : ℝ
  targetX : ℝ
  targetY : ℝ
  stepX : ℝ
  stepY : ℝ

instance : Inhabited APoint := ⟨⟨0, 0, 0, 0, 0, 0⟩⟩

def APoint.toPoint (p : APoint) : Pt := ⟨p.x, p.y⟩

/-- The animation constants record (the palette variant's `consts`).
Counts are naturals, durations rationals, geometric speeds reals. -/
structure Consts where
  newCurveMs : ℚ
  maxCurves : Nat
  numberOfSegments : Nat
  curveAnimationSpeed : ℝ
  squaredCurveAnimationSpeed : ℝ
  maxSegmentPerPoint : ℝ
  verticalCompression : ℝ
  verticalSlideSpeed : ℝ

/-- The default constants of the palette variant, with
squaredCurveAnimationSpeed set to the square of the speed as done right
after the record literal in the source. -/
noncomputable def defaultConsts : Consts where
  newCurveMs := 800
  maxCurves := 50
  numberOfSegments := 100
  curveAnimationSpeed := 0.01
  squaredCurveAnimationSpeed := 0.01 * 0.01
  maxSegmentPerPoint := 0.3
  verticalCompression := 0.35
  verticalSlideSpeed := 0.01

/-- One iteration of the animateCurve loop body, acting on control point
i.  rnd1 and rnd2 are the two Math.random() draws consumed if the point
is retargeted.  Real-valued definitions in this file are noncomputable
only because exact real arithmetic is; every count- or time-valued
computation the claims evaluate is factored into computable defs. -/
noncomputable def animatePoint (cs : Consts) (n i : Nat) (rnd1 rnd2 : ℝ)
    (update : ℝ) (point : APoint) : APoint :=
  let distanceX := point.targetX - point.x
  let distanceY := point.targetY - point.y
  if distanceX * distanceX + distanceY * distanceY ≤ cs.squaredCurveAnimationSpeed
      ∧ i ≠ 0 ∧ i ≠ n then
    -- Choose new targets
    let x := point.targetX
    let y := point.targetY
    let targetX := rnd1 * cs.maxSegmentPerPoint + ((i : ℝ) / (n : ℝ)) * (1 - cs.maxSegmentPerPoint)
    let targetY := rnd2
    let nrm := Real.sqrt (targetX * targetX + targetY * targetY)
    { x := x, y := y, targetX := targetX, targetY := targetY,
      stepX := (targetX - x) / nrm, stepY := (targetY - y) / nrm }
  else
    -- Animate points with fixed speed towards target
    let x := point.x + point.stepX * cs.squaredCurveAnimationSpeed * update
    let y := point.y + point.stepY * cs.squaredCurveAnimationSpeed * update
    -- Hotfix for the case that update is so big that the target is skipped
    if (point.targetX - x) ^ 2 + (point.targetY - y) ^ 2
        > distanceX * distanceX + distanceY * distanceY then
      { point with x := point.targetX, y := point.targetY }
    else
      { point with x := x, y := y }

/-- The animateCurve loop over control points 0..n.  The random oracle
supplies, per point index, the pair of draws used when that point is
retargeted. -/
noncomputable def animateCurve (cs : Consts) (n : Nat) (rnd : Nat → ℝ × ℝ)
    (update : ℝ) (curve : List APoint) : List APoint :=
  (List.range (n + 1)).map fun i =>
    animatePoint cs n i (rnd i).1 (rnd i).2 update (curve.getD i default)

/-- The polyline computed by renderCurve: 1 + numberOfSegments samples of
the Bernstein-weighted sum of the transformed control points, at
t = k / numberOfSegments for k = 0..numberOfSegments. -/
noncomputable def renderCurve (n : Nat) (binomial : List Nat) (numberOfSegments : Nat)
    (curve : List Pt) (transformX transformY : ℝ → ℝ) : List Pt :=
  (List.range (numberOfSegments + 1)).map fun (k : Nat) =>
    let t : ℝ := (k : ℝ) / (numberOfSegments : ℝ)
    { x := ∑ i in Finset.range (n + 1),
        (getNChooseX n binomial (i : Int) : ℝ) * (1 - t) ^ (n - i) * t ^ i
          * transformX ((curve.getD i default).x),
      y := ∑ i in Finset.range (n + 1),
        (getNChooseX n binomial (i : Int) : ℝ) * (1 - t) ^ (n - i) * t ^ i
          * transformY ((curve.getD i default).y) }

/-- C2: for a curve of n+1 control points, the polyline sample k = 0
(parameter t = 0) is exactly the transformed first control point, and
the sample k = numberOfSegments (t = 1) is exactly the transformed last
control point. -/
theorem c2_endpoint_interpolation (n segs : Nat) (curve : List Pt)
    (tX tY : ℝ → ℝ) (hsegs : 1 ≤ segs) (_hlen : curve.length = n + 1) :
    (renderCurve n (buildBinomial n) segs curve tX tY).getD 0 default
        = ⟨tX ((curve.getD 0 default).x), tY ((curve.getD 0 default).y)⟩ ∧
    (renderCurve n (buildBinomial n) segs curve tX tY).getD segs default
        = ⟨tX ((curve.getD n default).x), tY ((curve.getD n default).y)⟩ := by
  have hC0 : getNChooseX n (buildBinomial n) (0 : Int) = 1 := by
    simpa using getNChooseX_eq_choose n 0 (Nat.zero_le n)
  have hCn : getNChooseX n (buildBinomial n) ((n : Nat) : Int) = 1 := by
    simpa using getNChooseX_eq_choose n n le_rfl
  constructor
  · rw [renderCurve, getD_map_range' _ _ _ (by omega)]
    have ht : ((0 : Nat) : ℝ) / (segs : ℝ) = 0 := by simp
    refine Pt.ext ?_ ?_ <;> simp only [ht]
    · rw [Finset.sum_eq_single 0]
      · simp [hC0]
      · intro i _ hi
        simp [zero_pow hi]
      · intro h
        exact absurd (Finset.mem_range.mpr (by omega)) h
    · rw [Finset.sum_eq_single 0]
      · simp [hC0]
      · intro i _ hi
        simp [zero_pow hi]
      · intro h
        exact absurd (Finset.mem_range.mpr (by omega)) h
  · rw [renderCurve, getD_map_range' _ _ _ (by omega)]
    have ht : ((segs : Nat) : ℝ) / (segs : ℝ) = 1 := by
      rw [div_self]
      exact Nat.cast_ne_zero.mpr (by omega)
    refine Pt.ext ?_ ?_ <;> simp only [ht, sub_self]
    · rw [Finset.sum_eq_single n]
      · simp [hCn]
      · intro i hi hin
        have : n - i ≠ 0 := by
          have := Finset.mem_range.mp hi
          omega
        simp [zero_pow this]
      · intro h
        exact absurd (Finset.mem_range.mpr (by omega)) h
    · rw [Finset.sum_eq_single n]
      · simp [hCn]
      · intro i hi hin
        have : n - i ≠ 0 := by
          have := Finset.mem_range.mp hi
          omega
        simp [zero_pow this]
      · intro h
        exact absurd (Finset.mem_range.mpr (by omega)) h

theorem c2_endpoint_interpolation_witness :
    (renderCurve 1 (buildBinomial 1) 2 [⟨0, 0⟩, ⟨1, 1⟩] id id).getD 0 default
        = ⟨id ((([⟨0, 0⟩, ⟨1, 1⟩] : List Pt).getD 0 default).x),
           id ((([⟨0, 0⟩, ⟨1, 1⟩] : List Pt).getD 0 default).y)⟩ ∧
    (renderCurve 1 (buildBinomial 1) 2 [⟨0, 0⟩, ⟨1, 1⟩] id id).getD 2 default
        = ⟨id ((([⟨0, 0⟩, ⟨1, 1⟩] : List Pt).getD 1 default).x),
           id ((([⟨0, 0⟩, ⟨1, 1⟩] : List Pt).getD 1 default).y)⟩ :=
  c2_endpoint_interpolation 1 2 [⟨0, 0⟩, ⟨1, 1⟩] id id (by norm_num) rfl

/-- The new target x chosen when control point i is retargeted. -/
noncomputable def newTargetX (cs : Consts) (n i : Nat) (rnd1 : ℝ) : ℝ :=
  rnd1 * cs.maxSegmentPerPoint + ((i : ℝ) / (n : ℝ)) * (1 - cs.maxSegmentPerPoint)

/-- Behaviour of the retarget (snap) branch of the loop body. -/
theorem animatePoint_snap (cs : Consts) (n i : Nat) (rnd1 rnd2 update : ℝ) (p : APoint)
    (h : (p.targetX - p.x) * (p.targetX - p.x) + (p.targetY - p.y) * (p.targetY - p.y)
        ≤ cs.squaredCurveAnimationSpeed ∧ i ≠ 0 ∧ i ≠ n) :
    animatePoint cs n i rnd1 rnd2 update p =
      { x := p.targetX, y := p.targetY,
        targetX := newTargetX cs n i rnd1, targetY := rnd2,
        stepX := (newTargetX cs n i rnd1 - p.targetX)
          / Real.sqrt (newTargetX cs n i rnd1 * newTargetX cs n i rnd1 + rnd2 * rnd2),
        stepY := (rnd2 - p.targetY)
          / Real.sqrt (newTargetX cs n i rnd1 * newTargetX cs n i rnd1 + rnd2 * rnd2) } := by
  simp only [animatePoint, newTargetX]
  rw [if_pos h]

/-- Behaviour of the movement branch when the overshoot hotfix fires. -/
theorem animatePoint_hotfix (cs : Consts) (n i : Nat) (rnd1 rnd2 update : ℝ) (p : APoint)
    (hbr : ¬((p.targetX - p.x) * (p.targetX - p.x) + (p.targetY - p.y) * (p.targetY - p.y)
        ≤ cs.squaredCurveAnimationSpeed ∧ i ≠ 0 ∧ i ≠ n))
    (hot : (p.targetX - (p.x + p.stepX * cs.squaredCurveAnimationSpeed * update)) ^ 2
          + (p.targetY - (p.y + p.stepY * cs.squaredCurveAnimationSpeed * update)) ^ 2
        > (p.targetX - p.x) * (p.targetX - p.x) + (p.targetY - p.y) * (p.targetY - p.y)) :
    animatePoint cs n i rnd1 rnd2 update p = { p with x := p.targetX, y := p.targetY } := by
  simp only [animatePoint]
  rw [if_neg hbr, if_pos hot]

/-- Behaviour of the movement branch when the overshoot hotfix does not
fire: the point advances by step · squaredSpeed · update. -/
theorem animatePoint_step (cs : Consts) (n i : Nat) (rnd1 rnd2 update : ℝ) (p : APoint)
    (hbr : ¬((p.targetX - p.x) * (p.targetX - p.x) + (p.targetY - p.y) * (p.targetY - p.y)
        ≤ cs.squaredCurveAnimationSpeed ∧ i ≠ 0 ∧ i ≠ n))
    (hot : ¬((p.targetX - (p.x + p.stepX * cs.squaredCurveAnimationSpeed * update)) ^ 2
          + (p.targetY - (p.y + p.stepY * cs.squaredCurveAnimationSpeed * update)) ^ 2
        > (p.targetX - p.x) * (p.targetX - p.x) + (p.targetY - p.y) * (p.targetY - p.y))) :
    animatePoint cs n i rnd1 rnd2 update p =
      { p with x := p.x + p.stepX * cs.squaredCurveAnimationSpeed * update,
               y := p.y + p.stepY * cs.squaredCurveAnimationSpeed * update } := by
  simp only [animatePoint]
  rw [if_neg hbr, if_neg hot]

theorem animateCurve_getD (cs : Consts) (n : Nat) (rnd : Nat → ℝ × ℝ) (update : ℝ)
    (curve : List APoint) (i : Nat) (hi : i ≤ n) :
    (animateCurve cs n rnd update curve).getD i default
      = animatePoint cs n i (rnd i).1 (rnd i).2 update (curve.getD i default) := by
  rw [animateCurve, getD_map_range' _ _ _ (by omega)]

/-- A 3-point curve (degree 2) whose interior point sits within the
snap radius of its target: used to exercise the retarget branch. -/
noncomputable def c4curve : List APoint :=
  [⟨0, 0, 0, 0, 0, 0⟩, ⟨0, 0, 1/200, 0, 0, 0⟩, ⟨0, 0, 0, 0, 0, 0⟩]

/-- C4, counterexample.  An update call with elapsed time 0 does move a
control point: an interior point within the snap radius of its target is
snapped to the target even though no time has passed. -/
theorem c4_counterexample :
    ((animateCurve defaultConsts 2 (fun _ => (0, 0)) 0 c4curve).getD 1 default).x
      ≠ ((c4curve.getD 1 default)).x := by
  rw [animateCurve_getD _ _ _ _ _ _ (by omega)]
  have hp : c4curve.getD 1 default = ⟨0, 0, 1/200, 0, 0, 0⟩ := by
    simp [c4curve]
  rw [hp]
  rw [animatePoint_snap _ _ _ _ _ _ _ (by
    refine ⟨?_, by omega, by omega⟩
    show ((1:ℝ)/200 - 0) * ((1:ℝ)/200 - 0) + (0 - 0) * (0 - 0)
        ≤ defaultConsts.squaredCurveAnimationSpeed
    simp only [defaultConsts]
    norm_num)]
  simp only [hp]
  norm_num

/-- C4 (amended): an update with elapsed time 0 leaves the position of a
control point unchanged provided the point is an endpoint (index 0 or n)
or lies strictly outside the snap radius of its target; interior points
within the snap radius are retargeted (and moved onto their target) even
with zero elapsed time, as the counterexample shows. -/
theorem c4_zero_update (cs : Consts) (n : Nat) (rnd : Nat → ℝ × ℝ) (curve : List APoint)
    (i : Nat) (hi : i ≤ n)
    (h : i = 0 ∨ i = n ∨
      cs.squaredCurveAnimationSpeed
        < ((curve.getD i default).targetX - (curve.getD i default).x)
            * ((curve.getD i default).targetX - (curve.getD i default).x)
          + ((curve.getD i default).targetY - (curve.getD i default).y)
            * ((curve.getD i default).targetY - (curve.getD i default).y)) :
    ((animateCurve cs n rnd 0 curve).getD i default).x = (curve.getD i default).x ∧
    ((animateCurve cs n rnd 0 curve).getD i default).y = (curve.getD i default).y := by
  rw [animateCurve_getD _ _ _ _ _ _ hi]
  set p := curve.getD i default with hpdef
  have hbr : ¬((p.targetX - p.x) * (p.targetX - p.x) + (p.targetY - p.y) * (p.targetY - p.y)
      ≤ cs.squaredCurveAnimationSpeed ∧ i ≠ 0 ∧ i ≠ n) := by
    rcases h with h | h | h
    · exact fun hc => hc.2.1 h
    · exact fun hc => hc.2.2 h
    · exact fun hc => absurd hc.1 (not_le.mpr h)
  have hx0 : p.x + p.stepX * cs.squaredCurveAnimationSpeed * 0 = p.x := by ring
  have hy0 : p.y + p.stepY * cs.squaredCurveAnimationSpeed * 0 = p.y := by ring
  have hot : ¬((p.targetX - (p.x + p.stepX * cs.squaredCurveAnimationSpeed * 0)) ^ 2
        + (p.targetY - (p.y + p.stepY * cs.squaredCurveAnimationSpeed * 0)) ^ 2
      > (p.targetX - p.x) * (p.targetX - p.x) + (p.targetY - p.y) * (p.targetY - p.y)) := by
    rw [hx0, hy0, pow_two, pow_two]
    exact lt_irrefl _
  rw [animatePoint_step _ _ _ _ _ _ _ hbr hot]
  exact ⟨hx0, hy0⟩

theorem c4_zero_update_witness :
    ((animateCurve defaultConsts 2 (fun _ => (0, 0)) 0 c4curve).getD 0 default).x
        = (c4curve.getD 0 default).x ∧
    ((animateCurve defaultConsts 2 (fun _ => (0, 0)) 0 c4curve).getD 0 default).y
        = (c4curve.getD 0 default).y :=
  c4_zero_update defaultConsts 2 (fun _ => (0, 0)) c4curve 0 (by omega) (Or.inl rfl)

/-- C5, counterexample.  Per-step movement exceeding the remaining
distance to the target does not imply a snap: with the point at distance
1 from its target, a unit step towards it, and a movement budget of 1.5,
the point overshoots to 1.5 and stays there (the hotfix compares the new
distance against the old one, 0.5 < 1, so it does not fire), so the
post-update position is not the pre-update target. -/
theorem c5_counterexample :
    defaultConsts.squaredCurveAnimationSpeed * 15000 > 1
    ∧ (⟨0, 0, 1, 0, 1, 0⟩ : APoint).stepX * (⟨0, 0, 1, 0, 1, 0⟩ : APoint).stepX
        + (⟨0, 0, 1, 0, 1, 0⟩ : APoint).stepY * (⟨0, 0, 1, 0, 1, 0⟩ : APoint).stepY = 1
    ∧ ((⟨0, 0, 1, 0, 1, 0⟩ : APoint).targetX - (⟨0, 0, 1, 0, 1, 0⟩ : APoint).x)
        * ((⟨0, 0, 1, 0, 1, 0⟩ : APoint).targetX - (⟨0, 0, 1, 0, 1, 0⟩ : APoint).x)
      + ((⟨0, 0, 1, 0, 1, 0⟩ : APoint).targetY - (⟨0, 0, 1, 0, 1, 0⟩ : APoint).y)
        * ((⟨0, 0, 1, 0, 1, 0⟩ : APoint).targetY - (⟨0, 0, 1, 0, 1, 0⟩ : APoint).y) = 1
    ∧ (animatePoint defaultConsts 12 1 0 0 15000 ⟨0, 0, 1, 0, 1, 0⟩).x = 3 / 2
    ∧ (3 / 2 : ℝ) ≠ (⟨0, 0, 1, 0, 1, 0⟩ : APoint).targetX := by
  refine ⟨?_, by norm_num, by norm_num, ?_, by norm_num⟩
  · simp only [defaultConsts]
    norm_num
  · rw [animatePoint_step _ _ _ _ _ _ _
      (by
        simp only [defaultConsts]
        intro hc
        norm_num at hc)
      (by
        simp only [defaultConsts]
        norm_num)]
    simp only [defaultConsts]
    norm_num

/-- C5 (amended): under the movement branch, whenever the per-step
movement budget exceeds twice the remaining distance d to the target
(with the stored step being the unit vector towards the target), the
stepped position is farther from the target than before, the overshoot
hotfix fires, and the post-update position equals the pre-update target
exactly; the target itself is unchanged by this update (a new target is
only chosen by the retarget branch of a subsequent update). -/
theorem c5_snap_on_overshoot (cs : Consts) (n i : Nat) (rnd1 rnd2 update : ℝ)
    (p : APoint) (d : ℝ)
    (hbr : ¬((p.targetX - p.x) * (p.targetX - p.x) + (p.targetY - p.y) * (p.targetY - p.y)
        ≤ cs.squaredCurveAnimationSpeed ∧ i ≠ 0 ∧ i ≠ n))
    (hd : 0 < d)
    (hd2 : d * d = (p.targetX - p.x) * (p.targetX - p.x) + (p.targetY - p.y) * (p.targetY - p.y))
    (hsx : p.stepX * d = p.targetX - p.x)
    (hsy : p.stepY * d = p.targetY - p.y)
    (hbig : 2 * d < cs.squaredCurveAnimationSpeed * update) :
    (animatePoint cs n i rnd1 rnd2 update p).x = p.targetX
    ∧ (animatePoint cs n i rnd1 rnd2 update p).y = p.targetY
    ∧ (animatePoint cs n i rnd1 rnd2 update p).targetX = p.targetX
    ∧ (animatePoint cs n i rnd1 rnd2 update p).targetY = p.targetY := by
  set c := cs.squaredCurveAnimationSpeed * update with hc
  have hx : d * (p.targetX - (p.x + p.stepX * cs.squaredCurveAnimationSpeed * update))
      = (p.targetX - p.x) * (d - c) := by
    rw [hc]
    linear_combination (-(cs.squaredCurveAnimationSpeed * update)) * hsx
  have hy : d * (p.targetY - (p.y + p.stepY * cs.squaredCurveAnimationSpeed * update))
      = (p.targetY - p.y) * (d - c) := by
    rw [hc]
    linear_combination (-(cs.squaredCurveAnimationSpeed * update)) * hsy
  have hkey : (p.targetX - (p.x + p.stepX * cs.squaredCurveAnimationSpeed * update)) ^ 2
      + (p.targetY - (p.y + p.stepY * cs.squaredCurveAnimationSpeed * update)) ^ 2
      = (d - c) ^ 2 := by
    refine mul_left_cancel₀ (a := d ^ 2) (by positivity) ?_
    calc d ^ 2 * ((p.targetX - (p.x + p.stepX * cs.squaredCurveAnimationSpeed * update)) ^ 2
          + (p.targetY - (p.y + p.stepY * cs.squaredCurveAnimationSpeed * update)) ^ 2)
        = (d * (p.targetX - (p.x + p.stepX * cs.squaredCurveAnimationSpeed * update))) ^ 2
          + (d * (p.targetY - (p.y + p.stepY * cs.squaredCurveAnimationSpeed * update))) ^ 2 := by
          ring
      _ = ((p.targetX - p.x) * (d - c)) ^ 2 + ((p.targetY - p.y) * (d - c)) ^ 2 := by
          rw [hx, hy]
      _ = ((p.targetX - p.x) * (p.targetX - p.x)
            + (p.targetY - p.y) * (p.targetY - p.y)) * (d - c) ^ 2 := by
          ring
      _ = d * d * (d - c) ^ 2 := by rw [← hd2]
      _ = d ^ 2 * (d - c) ^ 2 := by ring
  have hot : (p.targetX - (p.x + p.stepX * cs.squaredCurveAnimationSpeed * update)) ^ 2
        + (p.targetY - (p.y + p.stepY * cs.squaredCurveAnimationSpeed * update)) ^ 2
      > (p.targetX - p.x) * (p.targetX - p.x) + (p.targetY - p.y) * (p.targetY - p.y) := by
    rw [hkey, ← hd2]
    nlinarith [hbig, hd]
  rw [animatePoint_hotfix _ _ _ _ _ _ _ hbr hot]
  exact ⟨rfl, rfl, rfl, rfl⟩

theorem c5_snap_on_overshoot_witness :
    (animatePoint defaultConsts 12 1 0 0 30000 ⟨0, 0, 1, 0, 1, 0⟩).x
        = (⟨0, 0, 1, 0, 1, 0⟩ : APoint).targetX
    ∧ (animatePoint defaultConsts 12 1 0 0 30000 ⟨0, 0, 1, 0, 1, 0⟩).y
        = (⟨0, 0, 1, 0, 1, 0⟩ : APoint).targetY
    ∧ (animatePoint defaultConsts 12 1 0 0 30000 ⟨0, 0, 1, 0, 1, 0⟩).targetX
        = (⟨0, 0, 1, 0, 1, 0⟩ : APoint).targetX
    ∧ (animatePoint defaultConsts 12 1 0 0 30000 ⟨0, 0, 1, 0, 1, 0⟩).targetY
        = (⟨0, 0, 1, 0, 1, 0⟩ : APoint).targetY :=
  c5_snap_on_overshoot defaultConsts 12 1 0 0 30000 ⟨0, 0, 1, 0, 1, 0⟩ 1
    (by
      simp only [defaultConsts]
      intro hc
      norm_num at hc)
    (by norm_num)
    (by norm_num)
    (by norm_num)
    (by norm_num)
    (by
      simp only [defaultConsts]
      norm_num)

/-- C8, counterexample.  Immediately after a retarget the stored step
direction need not be a unit vector: the code divides the difference to
the new target by the norm of the new target vector itself, not by the
norm of the difference.  With the point at (0.1, 0), equal to its old
target, and random draws giving the new target (0.6, 0.8) — itself a
unit vector — the step becomes (0.5, 0.8), whose squared norm is
0.89. -/
theorem c8_counterexample :
    (animatePoint defaultConsts 12 6 (5/6) (4/5) 0 ⟨1/10, 0, 1/10, 0, 0, 0⟩).stepX
        * (animatePoint defaultConsts 12 6 (5/6) (4/5) 0 ⟨1/10, 0, 1/10, 0, 0, 0⟩).stepX
      + (animatePoint defaultConsts 12 6 (5/6) (4/5) 0 ⟨1/10, 0, 1/10, 0, 0, 0⟩).stepY
        * (animatePoint defaultConsts 12 6 (5/6) (4/5) 0 ⟨1/10, 0, 1/10, 0, 0, 0⟩).stepY
      ≠ 1 := by
  rw [animatePoint_snap defaultConsts 12 6 (5/6) (4/5) 0 ⟨1/10, 0, 1/10, 0, 0, 0⟩
    (by
      refine ⟨?_, by omega, by omega⟩
      show ((1:ℝ)/10 - 1/10) * ((1:ℝ)/10 - 1/10) + ((0:ℝ) - 0) * ((0:ℝ) - 0)
          ≤ defaultConsts.squaredCurveAnimationSpeed
      simp only [defaultConsts]
      norm_num)]
  have htx : newTargetX defaultConsts 12 6 (5/6) = 3/5 := by
    simp only [newTargetX, defaultConsts]
    norm_num
  simp only [htx]
  have hN : (3/5 : ℝ) * (3/5) + (4/5 : ℝ) * (4/5) = 1 := by norm_num
  rw [hN, Real.sqrt_one]
  norm_num

/-- C8 (amended): immediately after a retarget, the stored step is the
difference from the point's position to its new target divided by the
norm of the new target vector (not of the difference): consequently the
squared norm of the step times the squared norm of the target vector
equals the squared distance to the target, so the step is a unit vector
exactly when that distance equals the norm of the target vector. -/
theorem c8_step_direction (cs : Consts) (n i : Nat) (rnd1 rnd2 update : ℝ) (p : APoint)
    (h : (p.targetX - p.x) * (p.targetX - p.x) + (p.targetY - p.y) * (p.targetY - p.y)
        ≤ cs.squaredCurveAnimationSpeed ∧ i ≠ 0 ∧ i ≠ n)
    (hpos : 0 < newTargetX cs n i rnd1 * newTargetX cs n i rnd1 + rnd2 * rnd2) :
    let q := animatePoint cs n i rnd1 rnd2 update p
    q.stepX = (q.targetX - q.x) / Real.sqrt (q.targetX * q.targetX + q.targetY * q.targetY)
    ∧ q.stepY = (q.targetY - q.y) / Real.sqrt (q.targetX * q.targetX + q.targetY * q.targetY)
    ∧ (q.stepX * q.stepX + q.stepY * q.stepY)
          * (q.targetX * q.targetX + q.targetY * q.targetY)
        = (q.targetX - q.x) * (q.targetX - q.x) + (q.targetY - q.y) * (q.targetY - q.y) := by
  intro q
  have hq : q = _ := animatePoint_snap cs n i rnd1 rnd2 update p h
  simp only [hq]
  refine ⟨trivial, trivial, ?_⟩
  set N := newTargetX cs n i rnd1 * newTargetX cs n i rnd1 + rnd2 * rnd2 with hNdef
  set a := newTargetX cs n i rnd1 - p.targetX with hadef
  set b := rnd2 - p.targetY with hbdef
  have hs : Real.sqrt N * Real.sqrt N = N := Real.mul_self_sqrt hpos.le
  calc (a / Real.sqrt N * (a / Real.sqrt N) + b / Real.sqrt N * (b / Real.sqrt N)) * N
      = ((a * a + b * b) / (Real.sqrt N * Real.sqrt N)) * N := by ring
    _ = ((a * a + b * b) / N) * N := by rw [hs]
    _ = a * a + b * b := div_mul_cancel₀ _ (ne_of_gt hpos)

theorem c8_step_direction_witness :
    (animatePoint defaultConsts 12 6 (5/6) (4/5) 0 ⟨1/10, 0, 1/10, 0, 0, 0⟩).stepX
      = ((animatePoint defaultConsts 12 6 (5/6) (4/5) 0 ⟨1/10, 0, 1/10, 0, 0, 0⟩).targetX
          - (animatePoint defaultConsts 12 6 (5/6) (4/5) 0 ⟨1/10, 0, 1/10, 0, 0, 0⟩).x)
        / Real.sqrt
          ((animatePoint defaultConsts 12 6 (5/6) (4/5) 0 ⟨1/10, 0, 1/10, 0, 0, 0⟩).targetX
            * (animatePoint defaultConsts 12 6 (5/6) (4/5) 0 ⟨1/10, 0, 1/10, 0, 0, 0⟩).targetX
          + (animatePoint defaultConsts 12 6 (5/6) (4/5) 0 ⟨1/10, 0, 1/10, 0, 0, 0⟩).targetY
            * (animatePoint defaultConsts 12 6 (5/6) (4/5) 0 ⟨1/10, 0, 1/10, 0, 0, 0⟩).targetY)
    ∧ (animatePoint defaultConsts 12 6 (5/6) (4/5) 0 ⟨1/10, 0, 1/10, 0, 0, 0⟩).stepY
      = ((animatePoint defaultConsts 12 6 (5/6) (4/5) 0 ⟨1/10, 0, 1/10, 0, 0, 0⟩).targetY
          - (animatePoint defaultConsts 12 6 (5/6) (4/5) 0 ⟨1/10, 0, 1/10, 0, 0, 0⟩).y)
        / Real.sqrt
          ((animatePoint defaultConsts 12 6 (5/6) (4/5) 0 ⟨1/10, 0, 1/10, 0, 0, 0⟩).targetX
            * (animatePoint defaultConsts 12 6 (5/6) (4/5) 0 ⟨1/10, 0, 1/10, 0, 0, 0⟩).targetX
          + (animatePoint defaultConsts 12 6 (5/6) (4/5) 0 ⟨1/10, 0, 1/10, 0, 0, 0⟩).targetY
            * (animatePoint defaultConsts 12 6 (5/6) (4/5) 0 ⟨1/10, 0, 1/10, 0, 0, 0⟩).targetY)
    ∧ ((animatePoint defaultConsts 12 6 (5/6) (4/5) 0 ⟨1/10, 0, 1/10, 0, 0, 0⟩).stepX
          * (animatePoint defaultConsts 12 6 (5/6) (4/5) 0 ⟨1/10, 0, 1/10, 0, 0, 0⟩).stepX
        + (animatePoint defaultConsts 12 6 (5/6) (4/5) 0 ⟨1/10, 0, 1/10, 0, 0, 0⟩).stepY
          * (animatePoint defaultConsts 12 6 (5/6) (4/5) 0 ⟨1/10, 0, 1/10, 0, 0, 0⟩).stepY)
        * ((animatePoint defaultConsts 12 6 (5/6) (4/5) 0 ⟨1/10, 0, 1/10, 0, 0, 0⟩).targetX
            * (animatePoint defaultConsts 12 6 (5/6) (4/5) 0 ⟨1/10, 0, 1/10, 0, 0, 0⟩).targetX
          + (animatePoint defaultConsts 12 6 (5/6) (4/5) 0 ⟨1/10, 0, 1/10, 0, 0, 0⟩).targetY
            * (animatePoint defaultConsts 12 6 (5/6) (4/5) 0 ⟨1/10, 0, 1/10, 0, 0, 0⟩).targetY)
      = ((animatePoint defaultConsts 12 6 (5/6) (4/5) 0 ⟨1/10, 0, 1/10, 0, 0, 0⟩).targetX
          - (animatePoint defaultConsts 12 6 (5/6) (4/5) 0 ⟨1/10, 0, 1/10, 0, 0, 0⟩).x)
        * ((animatePoint defaultConsts 12 6 (5/6) (4/5) 0 ⟨1/10, 0, 1/10, 0, 0, 0⟩).targetX
          - (animatePoint defaultConsts 12 6 (5/6) (4/5) 0 ⟨1/10, 0, 1/10, 0, 0, 0⟩).x)
      + ((animatePoint defaultConsts 12 6 (5/6) (4/5) 0 ⟨1/10, 0, 1/10, 0, 0, 0⟩).targetY
          - (animatePoint defaultConsts 12 6 (5/6) (4/5) 0 ⟨1/10, 0, 1/10, 0, 0, 0⟩).y)
        * ((animatePoint defaultConsts 12 6 (5/6) (4/5) 0 ⟨1/10, 0, 1/10, 0, 0, 0⟩).targetY
          - (animatePoint defaultConsts 12 6 (5/6) (4/5) 0 ⟨1/10, 0, 1/10, 0, 0, 0⟩).y) :=
  c8_step_direction defaultConsts 12 6 (5/6) (4/5) 0 ⟨1/10, 0, 1/10, 0, 0, 0⟩
    (by
      refine ⟨?_, by omega, by omega⟩
      show ((1:ℝ)/10 - 1/10) * ((1:ℝ)/10 - 1/10) + ((0:ℝ) - 0) * ((0:ℝ) - 0)
          ≤ defaultConsts.squaredCurveAnimationSpeed
      simp only [defaultConsts]
      norm_num)
    (by
      have htx : newTargetX defaultConsts 12 6 (5/6) = 3/5 := by
        simp only [newTargetX, defaultConsts]
        norm_num
      rw [htx]
      norm_num)

/-- Scalar linear interpolation (function interpolate). -/
noncomputable def interpolate (x y factor : ℝ) : ℝ := x + factor * (y - x)

/-- An RGB colour (class Colour). -/
structure Colour where
  r : ℝ
  g : ℝ
  b : ℝ

instance : Inhabited Colour := ⟨⟨0, 0, 0⟩⟩

/-- Colour.interpolate from the source. -/
noncomputable def Colour.interpolate (c other : Colour) (factor : ℝ) : Colour :=
  ⟨Bezier.interpolate c.r other.r factor,
   Bezier.interpolate c.g other.g factor,
   Bezier.interpolate c.b other.b factor⟩

/-- The palette list, in the insertion order of the source's colourMap
(which is also the cycling order of colourIndices). -/
noncomputable def colourMap : List (List Colour) :=
  [ [⟨255, 0, 24⟩, ⟨255, 165, 44⟩, ⟨255, 255, 65⟩, ⟨0, 128, 24⟩, ⟨0, 0, 249⟩, ⟨134, 0, 125⟩],
    [⟨58, 166, 63⟩, ⟨168, 212, 122⟩, ⟨255, 255, 255⟩, ⟨170, 170, 170⟩, ⟨0, 0, 0⟩],
    [⟨0, 0, 0⟩, ⟨164, 164, 164⟩, ⟨255, 255, 255⟩, ⟨129, 0, 129⟩],
    [⟨85, 205, 252⟩, ⟨247, 168, 184⟩, ⟨255, 255, 255⟩, ⟨247, 168, 184⟩, ⟨85, 205, 252⟩],
    [⟨255, 244, 48⟩, ⟨255, 255, 255⟩, ⟨156, 89, 209⟩, ⟨0, 0, 0⟩],
    [⟨214, 2, 112⟩, ⟨155, 79, 150⟩, ⟨0, 56, 168⟩],
    [⟨255, 218, 0⟩, ⟨122, 0, 172⟩],
    [⟨255, 27, 141⟩, ⟨255, 218, 0⟩, ⟨27, 179, 255⟩],
    [⟨214, 41, 0⟩, ⟨255, 155, 85⟩, ⟨255, 255, 255⟩, ⟨212, 97, 166⟩, ⟨165, 0, 98⟩] ]

/-- Canvas operations emitted by the render section, modelled as data. -/
inductive DrawCmd where
  | clearRect (x y w h : ℝ)
  | lineWidth (w : ℝ)
  | strokeStyleRGB (c : Colour)
  | strokeStyleRGBA (c : Colour) (a : ℝ)
  | stroke (pts : List Pt)

/-- The engine's mutable globals: the consts record, the binomial cache
var, the cacheReady flag, the palette index and the inter-frame vars of
the palette variant. -/
structure EngineState where
  consts : Consts
  binomial : List Nat
  cacheReady : Bool
  currentColoursIndex : Nat
  lastFrame : ℚ
  lastNewCurve : ℚ
  curves : List (List Pt)
  mainCurve : List APoint
  enableRendering : Bool

/-- The eviction while-loop: remove the oldest curve (index 0) while the
buffer length exceeds maxCurves. -/
def evictOverflow {α : Type} (maxCurves : Nat) : List α → List α
  | [] => []
  | c :: cs => if (c :: cs).length > maxCurves then evictOverflow maxCurves cs else c :: cs

/-- The state-mutating part of canvasDrawFrame, up to the rendering gate:
elapsed-time bookkeeping, cacheReady gate, control-point animation, curve
spawning and eviction. -/
noncomputable def updatePhase (n : Nat) (rnd : Nat → ℝ × ℝ) (s : EngineState)
    (timestamp : ℚ) : EngineState :=
  let update : ℝ := ((timestamp - s.lastFrame : ℚ) : ℝ)
  let s1 : EngineState := { s with lastFrame := timestamp }
  if s1.cacheReady = false then s1
  else
    let s2 : EngineState :=
      { s1 with mainCurve := animateCurve s1.consts n rnd update s1.mainCurve }
    let s3 : EngineState :=
      if timestamp - s2.lastNewCurve ≥ s2.consts.newCurveMs then
        { s2 with lastNewCurve := timestamp,
                  curves := s2.curves ++ [s2.mainCurve.map APoint.toPoint] }
      else s2
    { s3 with curves := evictOverflow s3.consts.maxCurves s3.curves }

/-- The render loop over the stored curves, threading the local
yTransform and colourIndex variables; emits a stroke-style command and a
polyline per curve. -/
noncomputable def renderLoop (cs : Consts) (n : Nat) (binomial : List Nat)
    (colours : List Colour) (slideFactor yPerCurve : ℝ)
    (tX : ℝ → ℝ) (tY : ℝ → ℝ → ℝ) :
    List (Nat × List Pt) → ℝ → Int → List DrawCmd
  | [], _, _ => []
  | (i, curve) :: rest, yTransform, colourIndex =>
    let nextColourIndex : Int := ⌊(colours.length : ℝ) * ((i : ℝ) / (cs.maxCurves : ℝ))⌋
    let colour :=
      if colourIndex ≠ nextColourIndex then
        (colours.getD nextColourIndex.toNat default).interpolate
          (colours.getD colourIndex.toNat default) slideFactor
      else colours.getD colourIndex.toNat default
    let styleCmd :=
      if i = 0 then DrawCmd.strokeStyleRGBA (colours.getD 0 default) (1 - slideFactor)
      else DrawCmd.strokeStyleRGB colour
    styleCmd
      :: DrawCmd.stroke (renderCurve n binomial cs.numberOfSegments curve tX (tY yTransform))
      :: renderLoop cs n binomial colours slideFactor yPerCurve tX tY rest
          (yTransform - yPerCurve) nextColourIndex

/-- The render section of canvasDrawFrame (everything after the
enableRendering gate): clears the canvas and strokes the stored curves
followed by the main curve.  It only reads the state. -/
noncomputable def renderPhase (n : Nat) (W H : ℝ) (s : EngineState)
    (timestamp : ℚ) : List DrawCmd :=
  let factorX := W
  let factorY := s.consts.verticalCompression * H
  let tX : ℝ → ℝ := fun x => x * factorX
  let tY : ℝ → ℝ → ℝ := fun yTransform y => 0.7 * H + factorY * (y - 0.5) + yTransform
  if s.enableRendering = false then []
  else
    let colours := colourMap.getD s.currentColoursIndex []
    let yPerCurve := -s.consts.verticalSlideSpeed * H
    let slideFactor : ℝ := ((timestamp - s.lastNewCurve : ℚ) : ℝ) / ((s.consts.newCurveMs : ℚ) : ℝ)
    let yTransform0 := yPerCurve * ((s.curves.length : ℝ) - 1) + yPerCurve * slideFactor
    DrawCmd.clearRect 0 0 W H
      :: DrawCmd.lineWidth 3
      :: (renderLoop s.consts n s.binomial colours slideFactor yPerCurve tX tY
            s.curves.enum yTransform0 0
          ++ [DrawCmd.strokeStyleRGB (colours.getD (colours.length - 1) default),
              DrawCmd.stroke (renderCurve n s.binomial s.consts.numberOfSegments
                (s.mainCurve.map APoint.toPoint) tX (tY 0))])

/-- One call of canvasDrawFrame of the palette variant: returns the
post-frame state together with the canvas commands emitted. -/
noncomputable def canvasDrawFrame (n : Nat) (rnd : Nat → ℝ × ℝ) (W H : ℝ)
    (s : EngineState) (timestamp : ℚ) : EngineState × List DrawCmd :=
  let update : ℝ := ((timestamp - s.lastFrame : ℚ) : ℝ)
  let s1 : EngineState := { s with lastFrame := timestamp }
  -- Gate off cache access until it is ready
  if s1.cacheReady = false then (s1, [])
  else
    -- Animate main curve
    let s2 : EngineState :=
      { s1 with mainCurve := animateCurve s1.consts n rnd update s1.mainCurve }
    -- Create new curves
    let s3 : EngineState :=
      if timestamp - s2.lastNewCurve ≥ s2.consts.newCurveMs then
        { s2 with lastNewCurve := timestamp,
                  curves := s2.curves ++ [s2.mainCurve.map APoint.toPoint] }
      else s2
    -- Remove curves until maximum is reached
    let s4 : EngineState := { s3 with curves := evictOverflow s3.consts.maxCurves s3.curves }
    -- No state updates beyond this point
    (s4, renderPhase n W H s4 timestamp)

/-- The synthetic timestamps visited by the warm-up for loop:
0, 16, 32, ... while the timestamp stays ≤ warmup. -/
def warmupTimestamps (warmup : ℚ) : List ℚ :=
  if warmup < 0 then []
  else (List.range (⌊warmup / 16⌋.toNat + 1)).map (fun (k : Nat) => 16 * (k : ℚ))

/-- Drive canvasDrawFrame over a list of timestamps, collecting the
commands of each frame; the frame counter indexes the per-frame random
oracle. -/
noncomputable def runFrames (n : Nat) (rndSeq : Nat → Nat → ℝ × ℝ) (W H : ℝ) :
    Nat → EngineState → List ℚ → EngineState × List (List DrawCmd)
  | _, s, [] => (s, [])
  | k, s, t :: ts =>
    let p := canvasDrawFrame n (rndSeq k) W H s t
    let q := runFrames n rndSeq W H (k + 1) p.1 ts
    (q.1, p.2 :: q.2)

/-- createRenderingLoop's warm-up portion: set lastFrame to -16, run the
synthetic frames, then enable rendering. -/
noncomputable def createRenderingLoop (n : Nat) (rndSeq : Nat → Nat → ℝ × ℝ) (W H : ℝ)
    (warmup : ℚ) (s : EngineState) : EngineState × List (List DrawCmd) :=
  let s0 : EngineState := { s with lastFrame := -16 }
  let p := runFrames n rndSeq W H 0 s0 (warmupTimestamps warmup)
  ({ p.1 with enableRendering := true }, p.2)

/-- The engine state right after the cache IIFE has run (vars literal
plus cacheReady := true), with the randomly seeded main curve left as a
parameter. -/
noncomputable def initialVars (cs : Consts) (binomial : List Nat)
    (mainCurve : List APoint) : EngineState :=
  { consts := cs, binomial := binomial, cacheReady := true, currentColoursIndex := 0,
    lastFrame := 0, lastNewCurve := -cs.newCurveMs, curves := [],
    mainCurve := mainCurve, enableRendering := false }

/-- The computable skeleton of one frame's effect on the history buffer:
how (lastNewCurve, curves.length) evolves under spawn-then-evict. -/
def skelStep (newCurveMs : ℚ) (maxCurves : Nat) (p : ℚ × Nat) (t : ℚ) : ℚ × Nat :=
  let p1 := if t - p.1 ≥ newCurveMs then (t, p.2 + 1) else p
  (p1.1, min p1.2 maxCurves)

theorem evictOverflow_length {α : Type} (m : Nat) (l : List α) :
    (evictOverflow m l).length = min l.length m := by
  induction l with
  | nil => simp [evictOverflow]
  | cons c cs ih =>
    rw [evictOverflow]
    split_ifs with h
    · rw [ih]
      simp only [List.length_cons] at h ⊢
      omega
    · simp only [List.length_cons] at h ⊢
      omega

theorem evictOverflow_suffix {α : Type} (m : Nat) (l : List α) :
    (evictOverflow m l).IsSuffix l := by
  induction l with
  | nil => simp [evictOverflow]
  | cons c cs ih =>
    rw [evictOverflow]
    split_ifs with h
    · exact ih.trans (List.suffix_cons c cs)
    · exact List.suffix_refl _

theorem canvasDrawFrame_consts (n : Nat) (rnd : Nat → ℝ × ℝ) (W H : ℝ)
    (s : EngineState) (t : ℚ) :
    (canvasDrawFrame n rnd W H s t).1.consts = s.consts := by
  simp only [canvasDrawFrame]
  split_ifs <;> rfl

theorem canvasDrawFrame_cacheReady (n : Nat) (rnd : Nat → ℝ × ℝ) (W H : ℝ)
    (s : EngineState) (t : ℚ) :
    (canvasDrawFrame n rnd W H s t).1.cacheReady = s.cacheReady := by
  simp only [canvasDrawFrame]
  split_ifs <;> rfl

theorem canvasDrawFrame_enableRendering (n : Nat) (rnd : Nat → ℝ × ℝ) (W H : ℝ)
    (s : EngineState) (t : ℚ) :
    (canvasDrawFrame n rnd W H s t).1.enableRendering = s.enableRendering := by
  simp only [canvasDrawFrame]
  split_ifs <;> rfl

theorem canvasDrawFrame_cmds_empty (n : Nat) (rnd : Nat → ℝ × ℝ) (W H : ℝ)
    (s : EngineState) (t : ℚ) (h : s.enableRendering = false) :
    (canvasDrawFrame n rnd W H s t).2 = [] := by
  simp only [canvasDrawFrame, renderPhase, h]
  split_ifs <;> simp_all

theorem canvasDrawFrame_skel (n : Nat) (rnd : Nat → ℝ × ℝ) (W H : ℝ)
    (s : EngineState) (t : ℚ) (h : s.cacheReady = true) :
    ((canvasDrawFrame n rnd W H s t).1.lastNewCurve,
     (canvasDrawFrame n rnd W H s t).1.curves.length)
      = skelStep s.consts.newCurveMs s.consts.maxCurves
          (s.lastNewCurve, s.curves.length) t := by
  simp only [canvasDrawFrame, skelStep, h]
  split_ifs with h1 h2 <;>
    simp_all [evictOverflow_length]

theorem runFrames_cmds_length (n : Nat) (rndSeq : Nat → Nat → ℝ × ℝ) (W H : ℝ)
    (k : Nat) (s : EngineState) (ts : List ℚ) :
    (runFrames n rndSeq W H k s ts).2.length = ts.length := by
  induction ts generalizing k s with
  | nil => rfl
  | cons t ts ih => simp [runFrames, ih]

theorem runFrames_cmds_empty (n : Nat) (rndSeq : Nat → Nat → ℝ × ℝ) (W H : ℝ)
    (k : Nat) (s : EngineState) (ts : List ℚ) (h : s.enableRendering = false) :
    ∀ cmds ∈ (runFrames n rndSeq W H k s ts).2, cmds = [] := by
  induction ts generalizing k s with
  | nil =>
    intro cmds hc
    simp [runFrames] at hc
  | cons t ts ih =>
    intro cmds hc
    simp only [runFrames, List.mem_cons] at hc
    rcases hc with hc | hc
    · rw [hc]
      exact canvasDrawFrame_cmds_empty n (rndSeq k) W H s t h
    · refine ih (k + 1) _ ?_ cmds hc
      rw [canvasDrawFrame_enableRendering]
      exact h

theorem runFrames_state (n : Nat) (rndSeq : Nat → Nat → ℝ × ℝ) (W H : ℝ)
    (k : Nat) (s : EngineState) (ts : List ℚ) (h : s.cacheReady = true) :
    ((runFrames n rndSeq W H k s ts).1.lastNewCurve,
     (runFrames n rndSeq W H k s ts).1.curves.length)
      = List.foldl (skelStep s.consts.newCurveMs s.consts.maxCurves)
          (s.lastNewCurve, s.curves.length) ts := by
  induction ts generalizing k s with
  | nil => rfl
  | cons t ts ih =>
    simp only [runFrames, List.foldl_cons]
    have hcr : (canvasDrawFrame n (rndSeq k) W H s t).1.cacheReady = true := by
      rw [canvasDrawFrame_cacheReady]
      exact h
    rw [ih (k + 1) _ hcr, canvasDrawFrame_consts, canvasDrawFrame_skel n (rndSeq k) W H s t h]

theorem runFrames_enableRendering (n : Nat) (rndSeq : Nat → Nat → ℝ × ℝ) (W H : ℝ)
    (k : Nat) (s : EngineState) (ts : List ℚ) :
    (runFrames n rndSeq W H k s ts).1.enableRendering = s.enableRendering := by
  induction ts generalizing k s with
  | nil => rfl
  | cons t ts ih =>
    simp only [runFrames]
    rw [ih, canvasDrawFrame_enableRendering]

/-- The uncapped insertion machine: how (lastNewCurve, insertions so
far) evolves under the spawn condition alone; proof device used to
compute the capped skeleton fold in closed form. -/
def insStep (newCurveMs : ℚ) (p : ℚ × Nat) (t : ℚ) : ℚ × Nat :=
  if t - p.1 ≥ newCurveMs then (t, p.2 + 1) else p

theorem insStep_pos (a : ℚ) (p : ℚ × Nat) (t : ℚ) (h : t - p.1 ≥ a) :
    insStep a p t = (t, p.2 + 1) := if_pos h

theorem insFold_shift (a : ℚ) (ts : List ℚ) (l : ℚ) (c : Nat) :
    List.foldl (insStep a) (l, c) ts
      = ((List.foldl (insStep a) (l, 0) ts).1,
          c + (List.foldl (insStep a) (l, 0) ts).2) := by
  induction ts generalizing l c with
  | nil => simp
  | cons t ts ih =>
    simp only [List.foldl_cons, insStep]
    split_ifs with hcond
    · rw [ih t (c + 1), ih t 1]
      simp only [Prod.mk.injEq, true_and]
      omega
    · exact ih l c

theorem skelFold_eq_insFold (a : ℚ) (cap : Nat) (ts : List ℚ) (l : ℚ) (c : Nat)
    (hts : ts ≠ []) :
    List.foldl (skelStep a cap) (l, c) ts
      = ((List.foldl (insStep a) (l, c) ts).1,
          min (List.foldl (insStep a) (l, c) ts).2 cap) := by
  induction ts generalizing l c with
  | nil => exact absurd rfl hts
  | cons t ts ih =>
    by_cases hts' : ts = []
    · subst hts'
      simp only [List.foldl_cons, List.foldl_nil, skelStep, insStep]
    · simp only [List.foldl_cons]
      have hstep : skelStep a cap (l, c) t
          = ((insStep a (l, c) t).1, min (insStep a (l, c) t).2 cap) := by
        simp only [skelStep, insStep]
      rcases hq2 : insStep a (l, c) t with ⟨l', c'⟩
      rw [hstep, hq2]
      simp only
      rw [ih _ _ hts']
      rw [insFold_shift a ts l' (min c' cap), insFold_shift a ts l' c']
      simp only [Prod.mk.injEq, true_and]
      omega

/-- With an 800 ms interval and a 16 ms step, the 49 timestamps after an
insertion at 16·k0 do not insert. -/
theorem insFold_noop (k0 c len : Nat) (hlen : len ≤ 49) :
    List.foldl (insStep 800) ((16 * (k0 : ℚ)), c)
      ((List.range len).map (fun (j : Nat) => 16 * ((k0 + 1 + j : Nat) : ℚ)))
      = (16 * (k0 : ℚ), c) := by
  induction len with
  | zero => simp
  | succ len ih =>
    rw [List.range_succ, List.map_append, List.foldl_append, ih (by omega)]
    simp only [List.map_cons, List.map_nil, List.foldl_cons, List.foldl_nil, insStep]
    rw [if_neg ?hcond]
    case hcond =>
      have hcast : ((len : ℚ)) ≤ 48 := by exact_mod_cast (by omega : len ≤ 48)
      push_cast
      intro hcontra
      linarith

/-- One full 800 ms block of 50 synthetic 16 ms steps after an insertion
at 16·k0: the first 49 steps are no-ops and the 50th inserts. -/
theorem insFold_block (k0 c : Nat) :
    List.foldl (insStep 800) ((16 * (k0 : ℚ)), c)
      ((List.range 50).map (fun (j : Nat) => 16 * ((k0 + 1 + j : Nat) : ℚ)))
      = (16 * ((k0 + 50 : Nat) : ℚ), c + 1) := by
  rw [show (50 : Nat) = 49 + 1 from rfl, List.range_succ, List.map_append,
    List.foldl_append, insFold_noop k0 c 49 le_rfl]
  simp only [List.map_cons, List.map_nil, List.foldl_cons, List.foldl_nil, insStep]
  rw [if_pos ?hcond]
  case hcond =>
    push_cast
    linarith

/-- The insertion machine over the warm-up timestamps 0, 16, ...,
16·50·B starting from lastNewCurve = -800: an insertion fires at time 0
and then at every multiple of 800, for B+1 insertions in total. -/
theorem insFold_warmup (B : Nat) :
    List.foldl (insStep 800) ((-800 : ℚ), 0)
      ((List.range (50 * B + 1)).map (fun (k : Nat) => 16 * (k : ℚ)))
      = (16 * ((50 * B : Nat) : ℚ), B + 1) := by
  induction B with
  | zero =>
    rw [show List.range 1 = [0] from rfl]
    norm_num [insStep, List.map_cons, List.map_nil, List.foldl_cons, List.foldl_nil]
  | succ B ih =>
    have hsplit : 50 * (B + 1) + 1 = (50 * B + 1) + 50 := by omega
    rw [hsplit, List.range_add, List.map_append, List.foldl_append, ih]
    have hmap : (List.map (fun (k : Nat) => 16 * (k : ℚ))
          (List.map (fun j => 50 * B + 1 + j) (List.range 50)))
        = (List.range 50).map (fun (j : Nat) => 16 * ((50 * B + 1 + j : Nat) : ℚ)) := by
      rw [List.map_map]
      rfl
    rw [hmap]
    rw [insFold_block (50 * B) (B + 1)]
    have hnat : ((50 * B + 50 : Nat) : ℚ) = ((50 * (B + 1) : Nat) : ℚ) := by
      push_cast
      ring
    rw [hnat]

/-- The insertion machine over K+1 timestamps spaced exactly at the
1000 ms interval, starting from lastNewCurve = -1000: every frame
inserts. -/
theorem insFold_every (K : Nat) :
    List.foldl (insStep 1000) ((-1000 : ℚ), 0)
      ((List.range (K + 1)).map (fun (k : Nat) => 1000 * (k : ℚ)))
      = (1000 * ((K : Nat) : ℚ), K + 1) := by
  induction K with
  | zero =>
    rw [show List.range 1 = [0] from rfl]
    norm_num [insStep, List.map_cons, List.map_nil, List.foldl_cons, List.foldl_nil]
  | succ K ih =>
    have hc : (1000 : ℚ) * ((K + 1 : Nat) : ℚ)
        - ((1000 : ℚ) * ((K : Nat) : ℚ), K + 1).1 ≥ 1000 := by
      refine ge_of_eq ?_
      show (1000 : ℚ) * ((K + 1 : Nat) : ℚ) - 1000 * ((K : Nat) : ℚ) = 1000
      push_cast
      ring
    rw [List.range_succ, List.map_append, List.foldl_append, ih,
      show List.map (fun (k : Nat) => 1000 * (k : ℚ)) [K + 1]
        = [1000 * ((K + 1 : Nat) : ℚ)] from rfl,
      List.foldl_cons, List.foldl_nil, insStep_pos 1000 _ _ hc]

/-- The constants of the variant the 31-frame scenario is stated for:
spawn interval 1000 ms, history maximum 30 (the geometric fields do not
enter the history-length computation). -/
noncomputable def scenarioConsts : Consts where
  newCurveMs := 1000
  maxCurves := 30
  numberOfSegments := 100
  curveAnimationSpeed := 0.01
  squaredCurveAnimationSpeed := 0.01 * 0.01
  maxSegmentPerPoint := 0.3
  verticalCompression := 0.35
  verticalSlideSpeed := 0.01

/-- C3: after any frame call with the cache ready, the history buffer
length is at most maxCurves, and FIFO order is preserved: the new buffer
is a suffix of the old buffer with at most one snapshot appended at the
end (eviction only drops oldest entries at index 0).  Moreover, driving
31 frames exactly 1000 ms apart with interval 1000 and maximum 30 yields
history length exactly 30 (31 insertions, one eviction). -/
theorem c3_history_bound :
    (∀ (n : Nat) (rnd : Nat → ℝ × ℝ) (W H : ℝ) (s : EngineState) (t : ℚ),
      s.cacheReady = true →
      (canvasDrawFrame n rnd W H s t).1.curves.length ≤ s.consts.maxCurves ∧
      (∃ snap, ((canvasDrawFrame n rnd W H s t).1.curves).IsSuffix (s.curves ++ [snap]) ∨
        ((canvasDrawFrame n rnd W H s t).1.curves).IsSuffix s.curves))
    ∧ (∀ (mc : List APoint) (rndSeq : Nat → Nat → ℝ × ℝ) (W H : ℝ),
      (runFrames 10 rndSeq W H 0
          (initialVars scenarioConsts (buildBinomial 10) mc)
          ((List.range 31).map (fun (k : Nat) => 1000 * (k : ℚ)))).1.curves.length = 30) := by
  constructor
  · intro n rnd W H s t hcr
    constructor
    · have hp := congrArg Prod.snd (canvasDrawFrame_skel n rnd W H s t hcr)
      simp only at hp
      rw [hp]
      simp only [skelStep]
      exact min_le_right _ _
    · simp only [canvasDrawFrame]
      split_ifs with h1 h2
      · simp_all
      · exact ⟨(animateCurve s.consts n rnd (((t - s.lastFrame : ℚ)) : ℝ) s.mainCurve).map
          APoint.toPoint, Or.inl (evictOverflow_suffix _ _)⟩
      · exact ⟨[], Or.inr (evictOverflow_suffix _ _)⟩
  · intro mc rndSeq W H
    have hstate := congrArg Prod.snd (runFrames_state 10 rndSeq W H 0
      (initialVars scenarioConsts (buildBinomial 10) mc)
      ((List.range 31).map (fun (k : Nat) => 1000 * (k : ℚ))) rfl)
    simp only [initialVars, scenarioConsts, List.length_nil] at hstate ⊢
    rw [hstate]
    have hins := insFold_every 30
    norm_num at hins
    have hskel := skelFold_eq_insFold 1000 30
      ((List.range 31).map (fun (k : Nat) => 1000 * (k : ℚ))) (-1000) 0 (by simp)
    rw [hins] at hskel
    rw [hskel]
    norm_num

theorem c3_history_bound_witness :
    ((canvasDrawFrame 10 (fun _ => (0, 0)) 100 100
        (initialVars scenarioConsts (buildBinomial 10) []) 0).1.curves.length ≤ 30)
    ∧ ((runFrames 10 (fun _ _ => (0, 0)) 100 100 0
        (initialVars scenarioConsts (buildBinomial 10) [])
        ((List.range 31).map (fun (k : Nat) => 1000 * (k : ℚ)))).1.curves.length = 30) := by
  refine ⟨?_, c3_history_bound.2 [] (fun _ _ => (0, 0)) 100 100⟩
  have h := (c3_history_bound.1 10 (fun _ => (0, 0)) 100 100
    (initialVars scenarioConsts (buildBinomial 10) []) 0 rfl).1
  simpa [initialVars, scenarioConsts] using h

/-- C6: one frame call decomposes as the update phase followed by a pure
render phase: the post-frame state is exactly the update phase's state —
the render section mutates nothing: consts, the binomial table, the
palette index, and all vars fields are those computed before the
rendering gate — and, once the cache is ready, the emitted commands are a
function of the post-update state alone, so drawing repeatedly between
updates yields identical commands and state. -/
theorem c6_render_pure :
    ∀ (n : Nat) (rnd : Nat → ℝ × ℝ) (W H : ℝ) (s : EngineState) (t : ℚ),
      (canvasDrawFrame n rnd W H s t).1 = updatePhase n rnd s t
      ∧ (s.cacheReady = true →
          (canvasDrawFrame n rnd W H s t).2 = renderPhase n W H (updatePhase n rnd s t) t) := by
  intro n rnd W H s t
  constructor
  · simp only [canvasDrawFrame, updatePhase]
    split_ifs <;> rfl
  · intro h
    simp only [canvasDrawFrame, updatePhase, h]
    split_ifs <;> simp_all

theorem c6_render_pure_witness :
    (canvasDrawFrame 12 (fun _ => (0, 0)) 100 100
        (initialVars defaultConsts (buildBinomial 12) []) 5).1
      = updatePhase 12 (fun _ => (0, 0)) (initialVars defaultConsts (buildBinomial 12) []) 5
    ∧ (canvasDrawFrame 12 (fun _ => (0, 0)) 100 100
        (initialVars defaultConsts (buildBinomial 12) []) 5).2
      = renderPhase 12 100 100
          (updatePhase 12 (fun _ => (0, 0))
            (initialVars defaultConsts (buildBinomial 12) []) 5) 5 :=
  ⟨(c6_render_pure 12 (fun _ => (0, 0)) 100 100
      (initialVars defaultConsts (buildBinomial 12) []) 5).1,
   (c6_render_pure 12 (fun _ => (0, 0)) 100 100
      (initialVars defaultConsts (buildBinomial 12) []) 5).2 rfl⟩

/-- C7: warmup(800) with 16 ms synthetic steps drives the frame-update
path exactly 51 times, at the synthetic timestamps 0, 16, ..., 800, and
emits no drawing command during the warm-up loop: rendering stays gated
off until the loop completes. -/
theorem c7_warmup :
    ∀ (n : Nat) (rndSeq : Nat → Nat → ℝ × ℝ) (W H : ℝ) (s : EngineState),
      s.enableRendering = false →
      warmupTimestamps 800 = (List.range 51).map (fun (k : Nat) => 16 * (k : ℚ))
      ∧ (createRenderingLoop n rndSeq W H 800 s).2.length = 51
      ∧ ∀ cmds ∈ (createRenderingLoop n rndSeq W H 800 s).2, cmds = [] := by
  intro n rndSeq W H s h
  have hts : warmupTimestamps 800 = (List.range 51).map (fun (k : Nat) => 16 * (k : ℚ)) := by
    rw [warmupTimestamps, if_neg (by norm_num)]
    norm_num
    rw [show Int.toNat 50 + 1 = 51 from rfl]
  refine ⟨hts, ?_, ?_⟩
  · simp only [createRenderingLoop]
    rw [runFrames_cmds_length, hts]
    simp
  · intro cmds hc
    simp only [createRenderingLoop] at hc
    exact runFrames_cmds_empty n rndSeq W H 0 _ (warmupTimestamps 800) (by simpa using h) cmds hc

theorem c7_warmup_witness :
    warmupTimestamps 800 = (List.range 51).map (fun (k : Nat) => 16 * (k : ℚ))
    ∧ (createRenderingLoop 12 (fun _ _ => (0, 0)) 100 100 800
        (initialVars defaultConsts (buildBinomial 12) [])).2.length = 51
    ∧ ∀ cmds ∈ (createRenderingLoop 12 (fun _ _ => (0, 0)) 100 100 800
        (initialVars defaultConsts (buildBinomial 12) [])).2, cmds = [] :=
  c7_warmup 12 (fun _ _ => (0, 0)) 100 100
    (initialVars defaultConsts (buildBinomial 12) []) rfl

/-- Unfolding lemma for the warm-up driver, kept over abstract
arguments. -/
theorem createRenderingLoop_fst (n : Nat) (rndSeq : Nat → Nat → ℝ × ℝ) (W H : ℝ)
    (w : ℚ) (s : EngineState) :
    (createRenderingLoop n rndSeq W H w s).1
      = { (runFrames n rndSeq W H 0 { s with lastFrame := -16 }
            (warmupTimestamps w)).1 with enableRendering := true } := rfl

theorem curves_setRendering (X : EngineState) :
    ({ X with enableRendering := true } : EngineState).curves = X.curves := rfl

/-- C10: in the palette variant the warm-up is invoked for
maxCurves · newCurveMs = 50 · 800 = 40000 ms at 16 ms synthetic steps;
when it completes, the history buffer holds exactly maxCurves = 50
frozen curves (51 insertions, capped at 50 by eviction), no drawing
command was emitted during the warm-up, and rendering is enabled for the
first real-time frame — the screen is never rendered with a partially
filled history. -/
theorem c10_warmup_fill :
    ∀ (mc : List APoint) (rndSeq : Nat → Nat → ℝ × ℝ) (W H : ℝ),
      (createRenderingLoop 12 rndSeq W H
          ((defaultConsts.maxCurves : ℚ) * defaultConsts.newCurveMs)
          (initialVars defaultConsts (buildBinomial 12) mc)).1.curves.length
        = defaultConsts.maxCurves
      ∧ (createRenderingLoop 12 rndSeq W H
          ((defaultConsts.maxCurves : ℚ) * defaultConsts.newCurveMs)
          (initialVars defaultConsts (buildBinomial 12) mc)).1.enableRendering = true
      ∧ ∀ cmds ∈ (createRenderingLoop 12 rndSeq W H
          ((defaultConsts.maxCurves : ℚ) * defaultConsts.newCurveMs)
          (initialVars defaultConsts (buildBinomial 12) mc)).2, cmds = [] := by
  intro mc rndSeq W H
  have hw : (defaultConsts.maxCurves : ℚ) * defaultConsts.newCurveMs = 40000 := by
    simp only [defaultConsts]
    norm_num
  have hts : warmupTimestamps 40000
      = (List.range 2501).map (fun (k : Nat) => 16 * (k : ℚ)) := by
    rw [warmupTimestamps, if_neg (by norm_num)]
    norm_num
    rw [show Int.toNat 2500 + 1 = 2501 from rfl]
  refine ⟨?_, ?_, ?_⟩
  · rw [createRenderingLoop_fst, curves_setRendering, hw]
    have hstate := congrArg Prod.snd (runFrames_state 12 rndSeq W H 0
      { initialVars defaultConsts (buildBinomial 12) mc with lastFrame := -16 }
      (warmupTimestamps 40000) rfl)
    dsimp only at hstate
    rw [show ({ initialVars defaultConsts (buildBinomial 12) mc with
          lastFrame := -16 } : EngineState).consts.newCurveMs = 800 from rfl,
        show ({ initialVars defaultConsts (buildBinomial 12) mc with
          lastFrame := -16 } : EngineState).consts.maxCurves = 50 from rfl,
        show ({ initialVars defaultConsts (buildBinomial 12) mc with
          lastFrame := -16 } : EngineState).lastNewCurve = -800 from rfl,
        show ({ initialVars defaultConsts (buildBinomial 12) mc with
          lastFrame := -16 } : EngineState).curves.length = 0 from rfl] at hstate
    have hins := insFold_warmup 50
    norm_num at hins
    have hskel := skelFold_eq_insFold 800 50
      ((List.range 2501).map (fun (k : Nat) => 16 * (k : ℚ))) (-800) 0 (by simp)
    rw [hins] at hskel
    rw [show (initialVars defaultConsts (buildBinomial 12) mc).lastNewCurve = -800 from rfl]
    rw [hstate, hts, hskel]
    show (51 : Nat) ⊓ 50 = 50
    omega
  · rw [createRenderingLoop_fst]
  · intro cmds hc
    simp only [createRenderingLoop, hw] at hc
    exact runFrames_cmds_empty 12 rndSeq W H 0 _ (warmupTimestamps 40000) rfl cmds hc

end Bezier
